import Mathlib

/-!
# PaddleOCR ncnn JNI glue (`wx-server/src/main/jni/paddleocr_ncnn.cpp`)

A shallow embedding of the JNI binding: the token decoder `decode_text`, and the
engine lifecycle manager made of the statics `g_ppocr`, `g_lock`, `objCls`, the member
ids, and the entry points `JNI_OnLoad`, `JNI_OnUnload`, `Init` and `Detect`.

Conventions of the embedding.
* C `int` values that are only compared or copied are `Int`.
* `float` values are only copied by this file, so they live in a type parameter `F`.
* A pointer that may be `nullptr` is an `Option`.
* What the headers `ppocrv5.h`, `ppocrv5_dict.h`, ncnn, OpenCV and the JVM compute is
  collected in `Platform`; what they answer to one particular call is a field of
  that call's argument record (`InitCall`, `DetectCall`).
* Every entry point returns an `Outcome`: the value returned to Java, the statics after
  the call, and the ordered list of events (lock operations, accesses to the statics,
  calls on the engine and into the JVM) the call performed.
-/

namespace PaddleOCRNcnn

/-! ## Data model -/

/-- Modelled from the spec: `Character` of `ppocrv5.h` (a Token, spec section 3); the
binding reads only its integer `id`. -/
structure Character where
  id : Int
  deriving DecidableEq, Repr

/-- The `cv::Point2f` of OpenCV. -/
structure Point2f (F : Type) where
  x : F
  y : F
  deriving DecidableEq, Repr

/-- The `cv::RotatedRect` of OpenCV: centre, size and angle. -/
structure RotatedRect (F : Type) where
  cx : F
  cy : F
  width : F
  height : F
  angle : F
  deriving DecidableEq, Repr

/-- Modelled from the spec: `Object` of `ppocrv5.h` (a RecognitionResult, spec
section 3): the oriented rectangle, the region confidence and the token sequence,
which are the three members the binding reads. -/
structure Object (F : Type) where
  rrect : RotatedRect F
  prob : F
  text : List Character
  deriving DecidableEq, Repr

/-- The loop body of `decode_text`: `if (id >= 0 && id < character_dict_size)
text += character_dict[id];`. -/
def decode_step (character_dict : Nat → String) (character_dict_size : Int)
    (text : String) (c : Character) : String :=
  if 0 ≤ c.id ∧ c.id < character_dict_size then text ++ character_dict c.id.toNat else text

/-- The function `decode_text`: starting from the empty string, the loop over
`obj.text[0 .. size)` in index order. The table `character_dict` and the constant
`character_dict_size` of `ppocrv5_dict.h` are parameters. -/
def decode_text {F : Type} (character_dict : Nat → String) (character_dict_size : Int)
    (obj : Object F) : String :=
  obj.text.foldl (decode_step character_dict character_dict_size) ""

/-- The decoding the specification describes (section 4.6): keep the tokens whose id
lies in `[0, character_dict_size)`, map each to its symbol, concatenate in order. -/
def spec_decode (character_dict : Nat → String) (character_dict_size : Int)
    (tokens : List Character) : String :=
  String.join
    ((tokens.filter (fun c => decide (0 ≤ c.id ∧ c.id < character_dict_size))).map
      (fun c => character_dict c.id.toNat))

/-! ## The statics and the events of a call -/

/-- A `jclass` global reference, named by the class object it refers to. -/
abbrev JClass := Nat

/-- An `AAssetManager*` that is not null. -/
abbrev AAssetManager := Nat

/-- Modelled from the spec: the class `PPOCRv5` of `ppocrv5.h` (the Engine, spec
section 3, attributes `loaded`, `target_size`, `use_fp16`, `use_gpu`), each attribute
being what the binding last told the instance: `loaded` whether `load` has returned 0
on it, `use_fp16` and `use_gpu` the flags passed to `load`, `target_size` the argument
of `set_target_size` (`none` before any such call). `id` is the identity of the
instance: the serial number of the `new` expression that built it. -/
structure PPOCRv5 where
  id : Nat
  loaded : Bool
  target_size : Option Int
  use_fp16 : Bool
  use_gpu : Bool
  deriving DecidableEq, Repr

/-- The object a `new PPOCRv5` expression yields as its `serial`-th instance. -/
def PPOCRv5.create (serial : Nat) : PPOCRv5 :=
  { id := serial, loaded := false, target_size := none, use_fp16 := false, use_gpu := false }

/-- Modelled from the spec: `PPOCRv5::load` (section 4.5: returns 0 on success, a
nonzero code otherwise), seen from the engine: `ret` is the code this call returns. -/
def PPOCRv5.load (e : PPOCRv5) (ret : Int) (use_fp16 use_gpu : Bool) : PPOCRv5 :=
  { e with loaded := decide (ret = 0), use_fp16 := use_fp16, use_gpu := use_gpu }

/-- Modelled from the spec: `PPOCRv5::set_target_size` (section 4.5, `SetTargetSize(n)`). -/
def PPOCRv5.set_target_size (e : PPOCRv5) (n : Int) : PPOCRv5 :=
  { e with target_size := some n }

/-- The file-level statics, with the two process-wide resources they stand for.
* `g_ppocr`: the pointer, `none` for `nullptr`, otherwise the engine it points to;
* `objCls`: the cached global reference to the result class;
* `memberIds`: `constructorId`, `x0Id` .. `y3Id`, `labelId`, `probId`, which are always
  written together: `none` while null, `some c` once resolved against class `c`;
* `gpu_instance`: whether the ncnn GPU instance exists;
* `heap`: the ids of the `PPOCRv5` objects constructed and not yet deleted;
* `next_serial`: how many `new PPOCRv5` expressions have run. -/
structure Manager where
  g_ppocr : Option PPOCRv5
  objCls : Option JClass
  memberIds : Option JClass
  gpu_instance : Bool
  heap : List Nat
  next_serial : Nat
  deriving DecidableEq, Repr

/-- The statics that are shared between calls. -/
inductive Static where
  | g_ppocr
  | objCls
  | memberIds
  deriving DecidableEq, Repr

/-- The functions outside `paddleocr_ncnn.cpp` that a call may invoke. -/
inductive Callee where
  | create_gpu_instance
  | destroy_gpu_instance
  | AAssetManager_fromJava
  | new_PPOCRv5
  | delete_PPOCRv5
  | get_gpu_count
  | load
  | set_target_size
  | detect_and_recognize
  | FindClass
  | NewGlobalRef
  | DeleteGlobalRef
  | GetEnv
  | GetMemberIDs
  | AndroidBitmap_getInfo
  | from_android_bitmap
  | NewObjectArray
  | NewObject
  | SetFields
  | SetObjectArrayElement
  deriving DecidableEq, Repr

/-- One observable step of a call: construction (`acquire`) or scope exit (`release`) of
a `std::lock_guard` on `g_lock`, a read or write of a static, a call to a `Callee`. -/
inductive Event where
  | acquire
  | release
  | read (v : Static)
  | write (v : Static)
  | call (f : Callee)
  deriving DecidableEq, Repr

/-- What an entry point produces: the value returned to the JVM, the statics afterwards
and the events performed, in program order. -/
structure Outcome (α : Type) where
  ret : α
  state : Manager
  trace : List Event

/-- The statics as zero-initialised when the library image is mapped. -/
def static_init : Manager :=
  { g_ppocr := none, objCls := none, memberIds := none, gpu_instance := false,
    heap := [], next_serial := 0 }

/-- The statement `delete p;` seen from the heap: nothing for a null pointer, otherwise
the pointee is destroyed. -/
def delete_ppocr (p : Option PPOCRv5) (heap : List Nat) : List Nat :=
  match p with
  | none => heap
  | some e => heap.erase e.id

/-- The events of `delete g_ppocr;`: the pointer is read, and the destructor runs when
it is not null. -/
def delete_events (p : Option PPOCRv5) : List Event :=
  match p with
  | none => [Event.read Static.g_ppocr]
  | some _ => [Event.read Static.g_ppocr, Event.call Callee.delete_PPOCRv5]

/-! ## `JNI_OnLoad` and `JNI_OnUnload` -/

/-- The entry point `JNI_OnLoad`: calls `ncnn::create_gpu_instance()` and ignores its
result; `created` tells whether that call brought a GPU instance into being. -/
def JNI_OnLoad (created : Bool) (s : Manager) : Outcome Unit :=
  { ret := (),
    state := { s with gpu_instance := s.gpu_instance || created },
    trace := [Event.call Callee.create_gpu_instance] }

/-- The statics when the JVM has loaded the library and `JNI_OnLoad` has created the GPU
instance. -/
def loaded_init : Manager := (JNI_OnLoad true static_init).state

/-- The events of the `if (objCls) { ... }` block of `JNI_OnUnload`; `get_env_ok` tells
whether `vm->GetEnv` returned `JNI_OK` with a non-null `env`. -/
def unload_class_events (objCls : Option JClass) (get_env_ok : Bool) : List Event :=
  match objCls with
  | none => [Event.read Static.objCls]
  | some _ =>
    [Event.read Static.objCls, Event.call Callee.GetEnv] ++
      (if get_env_ok then [Event.read Static.objCls, Event.call Callee.DeleteGlobalRef]
       else []) ++
      [Event.write Static.objCls]

/-- The entry point `JNI_OnUnload`: under the lock, `delete g_ppocr; g_ppocr = nullptr;`;
then, outside the lock, the class reference is released and cleared and the GPU
instance is destroyed. -/
def JNI_OnUnload (get_env_ok : Bool) (s : Manager) : Outcome Unit :=
  { ret := (),
    state := { s with
      g_ppocr := none,
      heap := delete_ppocr s.g_ppocr s.heap,
      objCls := none,
      gpu_instance := false },
    trace :=
      [Event.acquire] ++ delete_events s.g_ppocr ++
        [Event.write Static.g_ppocr, Event.release] ++
        unload_class_events s.objCls get_env_ok ++
        [Event.call Callee.destroy_gpu_instance] }

/-! ## `Init` -/

/-- What the environment answers during one call of `Init`:
* `mgr`: the result of `AAssetManager_fromJava(env, assetManager)`, `none` for null;
* `gpu_count`: the result of `ncnn::get_gpu_count()`;
* `load_ret`: the code `g_ppocr->load(...)` returns for the four model files;
* `find_class`: the result of `env->FindClass(".../PaddleOCRNcnn$Obj")`, `none` for
  null; consulted only when `objCls` is still null. -/
structure InitCall where
  mgr : Option AAssetManager
  gpu_count : Int
  load_ret : Int
  find_class : Option JClass
  deriving DecidableEq, Repr

/-- The events of `Init` from the lock guard up to and including the `load` call, on the
paths where the asset manager is not null. -/
def init_load_events (p : Option PPOCRv5) : List Event :=
  [Event.acquire, Event.call Callee.AAssetManager_fromJava] ++ delete_events p ++
    [Event.call Callee.new_PPOCRv5, Event.write Static.g_ppocr,
     Event.call Callee.get_gpu_count,
     Event.read Static.g_ppocr, Event.call Callee.load]

/-- The entry point `Java_com_tencent_paddleocrncnn_PaddleOCRNcnn_Init`. The whole body
runs under the lock guard declared on its first line. -/
def Init (c : InitCall) (s : Manager) : Outcome Bool :=
  match c.mgr with
  | none =>
    -- `if (!mgr) return JNI_FALSE;`
    { ret := false, state := s,
      trace := [Event.acquire, Event.call Callee.AAssetManager_fromJava, Event.release] }
  | some _ =>
    -- `delete g_ppocr; g_ppocr = new PPOCRv5;`
    let heap1 := delete_ppocr s.g_ppocr s.heap
    let e0 := PPOCRv5.create s.next_serial
    let heap2 := e0.id :: heap1
    let use_fp16 := true
    let use_gpu := decide (c.gpu_count > 0)
    let e1 := e0.load c.load_ret use_fp16 use_gpu
    if c.load_ret ≠ 0 then
      -- `delete g_ppocr; g_ppocr = nullptr; return JNI_FALSE;`
      { ret := false,
        state := { s with
          g_ppocr := none,
          heap := delete_ppocr (some e1) heap2,
          next_serial := s.next_serial + 1 },
        trace := init_load_events s.g_ppocr ++
          [Event.read Static.g_ppocr, Event.call Callee.delete_PPOCRv5,
           Event.write Static.g_ppocr, Event.release] }
    else
      -- `g_ppocr->set_target_size(640);`
      let e2 := e1.set_target_size 640
      match s.objCls with
      | some _ =>
        { ret := true,
          state := { s with
            g_ppocr := some e2, heap := heap2, next_serial := s.next_serial + 1 },
          trace := init_load_events s.g_ppocr ++
            [Event.read Static.g_ppocr, Event.call Callee.set_target_size,
             Event.read Static.objCls, Event.release] }
      | none =>
        match c.find_class with
        | none =>
          -- `if (!localObjCls) return JNI_FALSE;`
          { ret := false,
            state := { s with
              g_ppocr := some e2, heap := heap2, next_serial := s.next_serial + 1 },
            trace := init_load_events s.g_ppocr ++
              [Event.read Static.g_ppocr, Event.call Callee.set_target_size,
               Event.read Static.objCls, Event.call Callee.FindClass, Event.release] }
        | some cls =>
          -- `objCls = NewGlobalRef(localObjCls);` then the eleven member ids
          { ret := true,
            state := { s with
              g_ppocr := some e2, heap := heap2, next_serial := s.next_serial + 1,
              objCls := some cls, memberIds := some cls },
            trace := init_load_events s.g_ppocr ++
              [Event.read Static.g_ppocr, Event.call Callee.set_target_size,
               Event.read Static.objCls, Event.call Callee.FindClass,
               Event.call Callee.NewGlobalRef, Event.write Static.objCls,
               Event.read Static.objCls, Event.call Callee.GetMemberIDs,
               Event.write Static.memberIds, Event.release] }

/-! ## `Detect` -/

/-- The `AndroidBitmapInfo` of `android/bitmap.h`. -/
structure AndroidBitmapInfo where
  width : Nat
  height : Nat
  stride : Nat
  format : Int
  deriving DecidableEq, Repr

/-- The constant `ANDROID_BITMAP_FORMAT_RGBA_8888` of `android/bitmap.h`. -/
def ANDROID_BITMAP_FORMAT_RGBA_8888 : Int := 1

/-- A Java `Bitmap` as the binding sees it: `info` is what `AndroidBitmap_getInfo`
yields (`none` when it does not return `ANDROID_BITMAP_RESULT_SUCCESS`), `pixels` the
locked pixel bytes. -/
structure Bitmap where
  info : Option AndroidBitmapInfo
  pixels : List Nat
  deriving DecidableEq, Repr

/-- The `cv::Mat rgb` handed to the engine: rows, columns and 3-channel bytes. -/
structure Image where
  rows : Nat
  cols : Nat
  data : List Nat
  deriving DecidableEq, Repr

/-- The arguments of one `Detect` call: the bitmap and the `use_gpu` flag (which the
body never reads). -/
structure DetectCall where
  bitmap : Bitmap
  use_gpu : Bool
  deriving DecidableEq, Repr

/-- What lies outside `paddleocr_ncnn.cpp` and is a function of its arguments:
* `character_dict`, `character_dict_size`: the table and constant of `ppocrv5_dict.h`;
* `from_android_bitmap`: `ncnn::Mat::from_android_bitmap(.., PIXEL_RGB)` followed by
  `to_pixels` into a zeroed `CV_8UC3` matrix;
* `detect_and_recognize`: the object list `PPOCRv5::detect_and_recognize` stores into
  the empty vector it is given;
* `points`: `cv::RotatedRect::points`, the four corners in index order. -/
structure Platform (F : Type) where
  character_dict : Nat → String
  character_dict_size : Int
  from_android_bitmap : Bitmap → Image
  detect_and_recognize : PPOCRv5 → Image → List (Object F)
  points : RotatedRect F → Fin 4 → Point2f F

/-- The Java class `PaddleOCRNcnn$Obj` with the fields the binding sets. -/
structure Obj (F : Type) where
  x0 : F
  y0 : F
  x1 : F
  y1 : F
  x2 : F
  y2 : F
  x3 : F
  y3 : F
  label : String
  prob : F
  deriving DecidableEq, Repr

/-- What a `Detect` call ends in: `nullptr`, a Java array of `Obj`, or `undefined` when
the body hands the JVM a null class, member ids not resolved against the array's
class, or a length that does not fit `jsize`: JNI defines no result for such a call
(ART aborts the process). -/
inductive DetectResult (F : Type) where
  | null
  | array (objs : List (Obj F))
  | undefined
  deriving DecidableEq, Repr

/-- The body of the marshaling loop for one object: corners from `rrect.points`, label
from `decode_text` through `NewStringUTF`, `prob` copied. -/
def to_Obj {F : Type} (P : Platform F) (o : Object F) : Obj F :=
  let corners := P.points o.rrect
  { x0 := (corners 0).x, y0 := (corners 0).y,
    x1 := (corners 1).x, y1 := (corners 1).y,
    x2 := (corners 2).x, y2 := (corners 2).y,
    x3 := (corners 3).x, y3 := (corners 3).y,
    label := decode_text P.character_dict P.character_dict_size o,
    prob := o.prob }

/-- The events of one iteration of the marshaling loop. -/
def object_events : List Event :=
  [Event.read Static.objCls, Event.read Static.memberIds, Event.call Callee.NewObject,
   Event.read Static.memberIds, Event.call Callee.SetFields,
   Event.call Callee.SetObjectArrayElement]

/-- The events of the marshaling loop over `objects`. -/
def loop_events {F : Type} : List (Object F) → List Event
  | [] => []
  | _ :: rest => object_events ++ loop_events rest

/-- The largest `jsize` (a 32-bit signed `int`). -/
def JSIZE_MAX : Nat := 2 ^ 31 - 1

/-- Lines 158 to 183 of the source: `NewObjectArray(objects.size(), objCls, nullptr)` and
the loop filling it. Returns the result and the events. -/
def marshal {F : Type} (P : Platform F) (s : Manager) (objects : List (Object F)) :
    DetectResult F × List Event :=
  match s.objCls with
  | none =>
    (DetectResult.undefined, [Event.read Static.objCls, Event.call Callee.NewObjectArray])
  | some cls =>
    if objects.length > JSIZE_MAX then
      (DetectResult.undefined, [Event.read Static.objCls, Event.call Callee.NewObjectArray])
    else if objects.length = 0 ∨ s.memberIds = some cls then
      (DetectResult.array (objects.map (to_Obj P)),
        [Event.read Static.objCls, Event.call Callee.NewObjectArray] ++ loop_events objects)
    else
      (DetectResult.undefined,
        [Event.read Static.objCls, Event.call Callee.NewObjectArray,
         Event.read Static.objCls, Event.read Static.memberIds,
         Event.call Callee.NewObject])

/-- The events of `Detect` before the lock guard, once the format check has passed. -/
def adapt_events : List Event :=
  [Event.call Callee.AndroidBitmap_getInfo, Event.call Callee.from_android_bitmap]

/-- The entry point `Java_com_tencent_paddleocrncnn_PaddleOCRNcnn_Detect`. The lock guard
lives in the inner block around the null check and `detect_and_recognize`. -/
def Detect {F : Type} (P : Platform F) (d : DetectCall) (s : Manager) :
    Outcome (DetectResult F) :=
  match d.bitmap.info with
  | none =>
    { ret := DetectResult.null, state := s,
      trace := [Event.call Callee.AndroidBitmap_getInfo] }
  | some info =>
    if info.format ≠ ANDROID_BITMAP_FORMAT_RGBA_8888 then
      { ret := DetectResult.null, state := s,
        trace := [Event.call Callee.AndroidBitmap_getInfo] }
    else
      let rgb := P.from_android_bitmap d.bitmap
      match s.g_ppocr with
      | none =>
        -- `if (!g_ppocr) return nullptr;`
        { ret := DetectResult.null, state := s,
          trace := adapt_events ++
            [Event.acquire, Event.read Static.g_ppocr, Event.release] }
      | some e =>
        let objects := P.detect_and_recognize e rgb
        { ret := (marshal P s objects).1, state := s,
          trace := adapt_events ++
            [Event.acquire, Event.read Static.g_ppocr, Event.read Static.g_ppocr,
             Event.call Callee.detect_and_recognize, Event.release] ++
            (marshal P s objects).2 }

/-! ## Sequences of calls -/

/-- One call into the library after it has been loaded. -/
inductive Call where
  | init (c : InitCall)
  | detect (d : DetectCall)
  | unload (get_env_ok : Bool)
  deriving DecidableEq, Repr

/-- The statics after one call. -/
def step {F : Type} (P : Platform F) (s : Manager) (c : Call) : Manager :=
  match c with
  | Call.init i => (Init i s).state
  | Call.detect d => (Detect P d s).state
  | Call.unload ok => (JNI_OnUnload ok s).state

/-- The statics after a sequence of calls, first call first. -/
def run {F : Type} (P : Platform F) (s : Manager) (calls : List Call) : Manager :=
  calls.foldl (step P) s

/-- The number of `PPOCRv5` instances constructed and not yet destroyed. -/
def live_engines (s : Manager) : Nat := s.heap.length

/-- The ids of the instances a pointer accounts for: none for null, else its pointee. -/
def engine_ids (p : Option PPOCRv5) : List Nat :=
  match p with
  | none => []
  | some e => [e.id]

/-- Heap accounting of the manager: the instances alive are exactly the one `g_ppocr`
points to (none when it is null), and every instance alive was built by an earlier
`new`. -/
def Inv (s : Manager) : Prop :=
  s.heap = engine_ids s.g_ppocr ∧ ∀ i ∈ s.heap, i < s.next_serial

instance (s : Manager) : Decidable (Inv s) := by
  unfold Inv
  infer_instance

/-! ## Concrete inputs used to exercise the definitions -/

/-- A three-symbol dictionary. -/
def abc_dict : Nat → String := fun i => ["a", "b", "c"].getD i "?"

/-- A platform over integer "floats": the dictionary `abc_dict`, an engine that reports
one object per call, all four corners at the rectangle centre. -/
def abc_platform : Platform Int :=
  { character_dict := abc_dict,
    character_dict_size := 3,
    from_android_bitmap := fun b => { rows := 1, cols := 1, data := b.pixels.take 3 },
    detect_and_recognize := fun _ _ =>
      [{ rrect := { cx := 5, cy := 6, width := 0, height := 0, angle := 0 },
         prob := 1,
         text := [⟨2⟩, ⟨-1⟩, ⟨0⟩, ⟨3⟩, ⟨1⟩] }],
    points := fun r _ => { x := r.cx, y := r.cy } }

/-- A one-pixel RGBA_8888 bitmap. -/
def rgba_bitmap : Bitmap :=
  { info := some { width := 1, height := 1, stride := 4,
                   format := ANDROID_BITMAP_FORMAT_RGBA_8888 },
    pixels := [10, 20, 30, 255] }

/-- An `Init` call for which everything outside the binding succeeds. -/
def init_ok : InitCall :=
  { mgr := some 1, gpu_count := 0, load_ret := 0, find_class := some 7 }

/-- An `Init` call whose model files do not load. -/
def init_load_fails : InitCall :=
  { mgr := some 1, gpu_count := 0, load_ret := -1, find_class := some 7 }

/-- An `Init` call whose models load but whose `FindClass` returns null. -/
def init_no_class : InitCall :=
  { mgr := some 1, gpu_count := 0, load_ret := 0, find_class := none }

/-- An `Init` call whose asset manager is null. -/
def init_no_assets : InitCall :=
  { mgr := none, gpu_count := 0, load_ret := 0, find_class := some 7 }

/-! ## Derived states, the lock `g_lock`, concurrent callers -/

/-- The state a first successful `Init` leaves: engine 0 alive, result class cached. -/
def one_engine : Manager := (Init init_ok loaded_init).state

/-- The engine `Init` leaves behind `g_ppocr` when `load` has returned 0. -/
def committed (c : InitCall) (s : Manager) : PPOCRv5 :=
  { id := s.next_serial, loaded := true, target_size := some 640, use_fp16 := true,
    use_gpu := decide (c.gpu_count > 0) }

/-- The state an `Init` call leaves when the models load and `FindClass` fails. -/
def engine_without_class : Manager := (Init init_no_class loaded_init).state

/-- A `Detect` call on the one-pixel RGBA_8888 bitmap. -/
def detect_rgba : DetectCall := { bitmap := rgba_bitmap, use_gpu := false }

/-- Whether an event is a call on the engine or a step of result marshaling. -/
def engine_or_marshal (ev : Event) : Bool :=
  match ev with
  | Event.call Callee.detect_and_recognize => true
  | Event.call Callee.NewObjectArray => true
  | Event.call Callee.NewObject => true
  | Event.call Callee.SetFields => true
  | Event.call Callee.SetObjectArrayElement => true
  | _ => false

/-- Whether `g_lock` is held by the calling thread after it performs `ev`. -/
def lock_step (held : Bool) (ev : Event) : Bool :=
  match ev with
  | Event.acquire => true
  | Event.release => false
  | _ => held

/-- Whether every event selected by `p` in a sequence is performed while the calling
thread holds `g_lock`; `held` tells whether it holds the lock at the start. -/
def guarded (p : Event → Bool) : Bool → List Event → Bool
  | _, [] => true
  | held, ev :: rest => (held || !(p ev)) && guarded p (lock_step held ev) rest

/-- Whether the lock operations of a sequence are well formed for a non-recursive mutex:
no `acquire` while held, no `release` while not held. Returns whether the lock is
held at the end, `none` on a violation. -/
def lock_after : Bool → List Event → Option Bool
  | held, [] => some held
  | held, ev :: rest =>
    match ev, held with
    | Event.acquire, true => none
    | Event.release, false => none
    | _, _ => lock_after (lock_step held ev) rest

/-- A read or write of one of the shared statics (`g_ppocr`, `objCls`, the member ids). -/
def shared_access (ev : Event) : Bool :=
  match ev with
  | Event.read _ => true
  | Event.write _ => true
  | _ => false

/-- A read or write of `g_ppocr`, or a call on a `PPOCRv5` instance. -/
def engine_access (ev : Event) : Bool :=
  match ev with
  | Event.read Static.g_ppocr => true
  | Event.write Static.g_ppocr => true
  | Event.call Callee.new_PPOCRv5 => true
  | Event.call Callee.delete_PPOCRv5 => true
  | Event.call Callee.load => true
  | Event.call Callee.set_target_size => true
  | Event.call Callee.detect_and_recognize => true
  | _ => false

/-- Any event other than the lock operations themselves. -/
def any_step (ev : Event) : Bool :=
  match ev with
  | Event.acquire => false
  | Event.release => false
  | _ => true

/-- Whether every event selected by `p` in a sequence is performed while the calling
thread does not hold `g_lock`; `held` tells whether it holds the lock at the start. -/
def unlocked (p : Event → Bool) : Bool → List Event → Bool
  | _, [] => true
  | held, ev :: rest => (!held || !(p ev)) && unlocked p (lock_step held ev) rest

/-- The steps of `Detect` inside its lock block: the reads of `g_ppocr` (null check and
call receiver) and the `detect_and_recognize` call. -/
def detect_locked (ev : Event) : Bool :=
  match ev with
  | Event.read Static.g_ppocr => true
  | Event.call Callee.detect_and_recognize => true
  | _ => false

/-- The steps of `JNI_OnUnload` inside its lock block: `delete g_ppocr; g_ppocr =
nullptr;`. -/
def unload_locked (ev : Event) : Bool :=
  match ev with
  | Event.read Static.g_ppocr => true
  | Event.call Callee.delete_PPOCRv5 => true
  | Event.write Static.g_ppocr => true
  | _ => false

/-- Every step other than the lock operations and the steps selected by `q`. -/
def all_but (q : Event → Bool) (ev : Event) : Bool := any_step ev && !(q ev)

/-- Threads running concurrently: `holder` is the thread owning `g_lock`, if any, and
`pending` gives, per thread, the events it has still to perform. -/
structure Threads where
  holder : Option Nat
  pending : List (List Event)
  deriving DecidableEq, Repr

/-- Thread `i` performs its next event, under the semantics of `std::mutex`: `acquire`
needs the lock to be free and takes it, `release` needs the thread to own the lock
and frees it. `none` when the thread cannot move (finished, blocked, or no such
thread). -/
def Threads.advance (t : Threads) (i : Nat) : Option Threads :=
  match t.pending[i]? with
  | none => none
  | some [] => none
  | some (ev :: rest) =>
    match ev with
    | Event.acquire =>
      if t.holder = none then
        some { holder := some i, pending := t.pending.set i rest }
      else none
    | Event.release =>
      if t.holder = some i then
        some { holder := none, pending := t.pending.set i rest }
      else none
    | _ => some { holder := t.holder, pending := t.pending.set i rest }

/-- The threads after a schedule (the thread indices in the order they move); `none`
when the schedule asks a thread to move that cannot. -/
def Threads.exec (t : Threads) : List Nat → Option Threads
  | [] => some t
  | i :: later =>
    match t.advance i with
    | none => none
    | some t1 => t1.exec later

/-- The threads at the start: nobody owns the lock and thread `i` is about to run the
`i`-th of the given event sequences. -/
def Threads.start (traces : List (List Event)) : Threads :=
  { holder := none, pending := traces }

/-- The event sequence one call performs in state `s`. -/
def call_trace {F : Type} (P : Platform F) (s : Manager) (c : Call) : List Event :=
  match c with
  | Call.init i => (Init i s).trace
  | Call.detect d => (Detect P d s).trace
  | Call.unload ok => (JNI_OnUnload ok s).trace

/-- Every thread's pending events keep the events selected by `p` under the lock, given
whether that thread currently owns it. -/
def ThreadsGuarded (p : Event → Bool) (t : Threads) : Prop :=
  ∀ i tr, t.pending[i]? = some tr → guarded p (decide (t.holder = some i)) tr = true

/-! ## `decode_text` -/

/-- The loop of `decode_text` started from any accumulator appends the in-range symbols
to it. -/
theorem foldl_decode_step (dict : Nat → String) (size : Int) (tokens : List Character)
    (acc : String) :
    tokens.foldl (decode_step dict size) acc =
      ((tokens.filter (fun c => decide (0 ≤ c.id ∧ c.id < size))).map
        (fun c => dict c.id.toNat)).foldl (fun r s => r ++ s) acc := by
  induction tokens generalizing acc with
  | nil => rfl
  | cons c rest ih =>
    by_cases h : 0 ≤ c.id ∧ c.id < size
    · simp [List.filter, decode_step, h, ih]
    · simp [List.filter, decode_step, h, ih]

/-- C1: for every token sequence `decode_text` returns exactly the in-order concatenation
of `character_dict[id]` over the tokens with `0 <= id < character_dict_size` (tokens
outside the range are filtered out and so contribute nothing), and the empty token
sequence decodes to the empty string. -/
theorem decode_text_concatenates_in_range {F : Type} (dict : Nat → String) (size : Int)
    (obj : Object F) :
    decode_text dict size obj = spec_decode dict size obj.text ∧
    decode_text dict size { obj with text := [] } = "" := by
  refine ⟨?_, rfl⟩
  unfold decode_text spec_decode String.join
  exact foldl_decode_step dict size obj.text ""

/-! ## Heap accounting -/

theorem inv_static_init : Inv static_init := by decide

theorem inv_loaded_init : Inv loaded_init := by decide

theorem inv_JNI_OnLoad (created : Bool) : Inv (JNI_OnLoad created static_init).state := by
  cases created <;> decide

theorem delete_ppocr_some (e : PPOCRv5) (heap : List Nat) :
    delete_ppocr (some e) heap = heap.erase e.id := rfl

theorem delete_ppocr_none (heap : List Nat) : delete_ppocr none heap = heap := rfl

theorem delete_ppocr_of_inv (s : Manager) (h : Inv s) : delete_ppocr s.g_ppocr s.heap = [] := by
  obtain ⟨hh, _⟩ := h
  cases hg : s.g_ppocr with
  | none => simp [delete_ppocr, hh, hg, engine_ids]
  | some e => simp [delete_ppocr, hh, hg, engine_ids]

theorem inv_Init (c : InitCall) (s : Manager) (h : Inv s) : Inv (Init c s).state := by
  have hd := delete_ppocr_of_inv s h
  unfold Init
  cases hm : c.mgr with
  | none => simpa using h
  | some m =>
    by_cases hr : c.load_ret = 0
    · cases ho : s.objCls with
      | some cls =>
        simp [hr, hd, Inv, engine_ids, PPOCRv5.create, PPOCRv5.load, PPOCRv5.set_target_size]
      | none =>
        cases hf : c.find_class <;>
        simp [hr, hd, Inv, engine_ids, PPOCRv5.create, PPOCRv5.load,
          PPOCRv5.set_target_size]
    · simp [hr, hd, Inv, engine_ids, delete_ppocr_some, PPOCRv5.create, PPOCRv5.load]

theorem state_Detect {F : Type} (P : Platform F) (d : DetectCall) (s : Manager) :
    (Detect P d s).state = s := by
  unfold Detect
  cases d.bitmap.info with
  | none => rfl
  | some info =>
    by_cases hf : info.format = ANDROID_BITMAP_FORMAT_RGBA_8888
    · cases hg : s.g_ppocr <;> simp [hf]
    · simp [hf]

theorem inv_JNI_OnUnload (ok : Bool) (s : Manager) (h : Inv s) :
    Inv (JNI_OnUnload ok s).state := by
  have hd := delete_ppocr_of_inv s h
  simp [JNI_OnUnload, Inv, engine_ids, hd]

theorem inv_step {F : Type} (P : Platform F) (s : Manager) (c : Call) (h : Inv s) :
    Inv (step P s c) := by
  cases c with
  | init i => exact inv_Init i s h
  | detect d => simpa [step, state_Detect] using h
  | unload ok => exact inv_JNI_OnUnload ok s h

theorem inv_run {F : Type} (P : Platform F) (calls : List Call) (s : Manager) (h : Inv s) :
    Inv (run P s calls) := by
  induction calls generalizing s with
  | nil => exact h
  | cons c rest ih => exact ih (step P s c) (inv_step P s c h)

/-- C9: in every state reached from the freshly loaded library (whether or not
`JNI_OnLoad` obtained a GPU instance) by any sequence of `Init`, `Detect` and
`JNI_OnUnload` calls, at most one `PPOCRv5` instance is constructed and not yet
destroyed, and there is exactly one precisely when `g_ppocr` is not null; the instance
alive is the one `g_ppocr` points to. -/
theorem at_most_one_live_engine {F : Type} (P : Platform F) (created : Bool)
    (calls : List Call) :
    live_engines (run P (JNI_OnLoad created static_init).state calls) ≤ 1 ∧
    (live_engines (run P (JNI_OnLoad created static_init).state calls) = 1 ↔
      (run P (JNI_OnLoad created static_init).state calls).g_ppocr ≠ none) ∧
    (run P (JNI_OnLoad created static_init).state calls).heap =
      engine_ids (run P (JNI_OnLoad created static_init).state calls).g_ppocr := by
  obtain ⟨hh, _⟩ := inv_run P calls _ (inv_JNI_OnLoad created)
  refine ⟨?_, ?_, hh⟩
  · rw [live_engines, hh]
    cases (run P (JNI_OnLoad created static_init).state calls).g_ppocr <;>
      simp [engine_ids]
  · rw [live_engines, hh]
    cases (run P (JNI_OnLoad created static_init).state calls).g_ppocr <;>
      simp [engine_ids]

/-! ## `Init` -/

theorem Init_no_assets (c : InitCall) (s : Manager) (hm : c.mgr = none) :
    (Init c s).ret = false ∧ (Init c s).state = s ∧
    (Init c s).trace =
      [Event.acquire, Event.call Callee.AAssetManager_fromJava, Event.release] := by
  unfold Init
  simp [hm]

theorem Init_load_failure (c : InitCall) (s : Manager) (m : AAssetManager)
    (hm : c.mgr = some m) (hr : c.load_ret ≠ 0) :
    (Init c s).ret = false ∧
    (Init c s).state = { s with
      g_ppocr := none, heap := delete_ppocr s.g_ppocr s.heap,
      next_serial := s.next_serial + 1 } ∧
    (Init c s).trace = init_load_events s.g_ppocr ++
      [Event.read Static.g_ppocr, Event.call Callee.delete_PPOCRv5,
       Event.write Static.g_ppocr, Event.release] := by
  unfold Init
  simp [hm, hr, delete_ppocr_some, PPOCRv5.create, PPOCRv5.load]

theorem Init_load_ok_state (c : InitCall) (s : Manager) (m : AAssetManager)
    (hm : c.mgr = some m) (hr : c.load_ret = 0) :
    (Init c s).state.g_ppocr = some (committed c s) ∧
    (Init c s).state.heap = s.next_serial :: delete_ppocr s.g_ppocr s.heap ∧
    (Init c s).state.next_serial = s.next_serial + 1 := by
  unfold Init
  cases ho : s.objCls <;> cases hf : c.find_class <;>
    simp [hm, hr, committed, PPOCRv5.create, PPOCRv5.load, PPOCRv5.set_target_size]

theorem Init_load_ok_ret (c : InitCall) (s : Manager) (m : AAssetManager)
    (hm : c.mgr = some m) (hr : c.load_ret = 0) :
    ((Init c s).ret = true ↔ (s.objCls ≠ none ∨ c.find_class ≠ none)) := by
  unfold Init
  cases ho : s.objCls <;> cases hf : c.find_class <;> simp [hm, hr]

/-- C3, as stated, fails: on the freshly loaded library an `Init` call with an asset
manager and a model load returning 0 returns `JNI_FALSE` when `FindClass` yields
null. -/
theorem Init_load_ok_returns_false :
    init_no_class.mgr = some 1 ∧ init_no_class.load_ret = 0 ∧
    (Init init_no_class loaded_init).ret = false := by decide

/-- C3, amended: from every prior state, an `Init` call whose asset manager is present,
whose model load returns 0, and for which the result class is already cached or
`FindClass` finds it, returns `JNI_TRUE`; afterwards `g_ppocr` points to the newly
constructed engine, whose target size is 640, and when the prior state satisfies the
heap accounting that engine is the only instance alive. -/
theorem Init_success_commits_engine (c : InitCall) (s : Manager) (m : AAssetManager)
    (hm : c.mgr = some m) (hl : c.load_ret = 0)
    (hc : s.objCls ≠ none ∨ c.find_class ≠ none) :
    (Init c s).ret = true ∧
    ∃ e, (Init c s).state.g_ppocr = some e ∧ e.target_size = some 640 ∧
      e.id = s.next_serial ∧
      (Inv s → (Init c s).state.heap = [e.id] ∧ live_engines (Init c s).state = 1) := by
  obtain ⟨hg, hh, _⟩ := Init_load_ok_state c s m hm hl
  refine ⟨(Init_load_ok_ret c s m hm hl).2 hc, committed c s, hg, rfl, rfl, fun hi => ?_⟩
  rw [live_engines, hh, delete_ppocr_of_inv s hi]
  exact ⟨rfl, rfl⟩

theorem Init_success_commits_engine_witness :
    (Init init_ok loaded_init).ret = true ∧
    ∃ e, (Init init_ok loaded_init).state.g_ppocr = some e ∧ e.target_size = some 640 ∧
      e.id = loaded_init.next_serial ∧
      (Init init_ok loaded_init).state.heap = [e.id] ∧
      live_engines (Init init_ok loaded_init).state = 1 :=
  match Init_success_commits_engine init_ok loaded_init 1 rfl rfl (Or.inr (by decide)) with
  | ⟨hret, e, hg, ht, hid, hinv⟩ => ⟨hret, e, hg, ht, hid, hinv (by decide)⟩

/-- C4: from every prior state, an `Init` call whose model load returns a nonzero code
returns `JNI_FALSE`, deletes the engine it has just constructed (the heap is the prior
heap less the prior engine), and leaves `g_ppocr` null; when the prior state satisfies
the heap accounting no instance at all is alive afterwards. -/
theorem Init_load_failure_discards (c : InitCall) (s : Manager) (m : AAssetManager)
    (hm : c.mgr = some m) (hr : c.load_ret ≠ 0) :
    (Init c s).ret = false ∧
    (Init c s).state.g_ppocr = none ∧
    (Init c s).state.heap = delete_ppocr s.g_ppocr s.heap ∧
    (Inv s → live_engines (Init c s).state = 0 ∧
      s.next_serial ∉ (Init c s).state.heap) := by
  obtain ⟨hret, hst, _⟩ := Init_load_failure c s m hm hr
  refine ⟨hret, by rw [hst], by rw [hst], fun hi => ?_⟩
  rw [live_engines, hst]
  simp [delete_ppocr_of_inv s hi]

theorem Init_load_failure_discards_witness :
    (Init init_load_fails one_engine).ret = false ∧
    (Init init_load_fails one_engine).state.g_ppocr = none ∧
    (Init init_load_fails one_engine).state.heap =
      delete_ppocr one_engine.g_ppocr one_engine.heap ∧
    live_engines (Init init_load_fails one_engine).state = 0 ∧
    one_engine.next_serial ∉ (Init init_load_fails one_engine).state.heap :=
  match Init_load_failure_discards init_load_fails one_engine 1 rfl (by decide) with
  | ⟨hret, hg, hh, hinv⟩ => ⟨hret, hg, hh, hinv (by decide)⟩

/-- C5, as stated, fails: with engine 0 alive, an `Init` call whose asset manager is null
returns `JNI_FALSE` and the engine that was live before the call is still the live
one, still on the heap. -/
theorem Init_no_assets_keeps_prior_engine :
    one_engine.g_ppocr ≠ none ∧
    (Init init_no_assets one_engine).ret = false ∧
    (Init init_no_assets one_engine).state.g_ppocr = one_engine.g_ppocr ∧
    (Init init_no_assets one_engine).state.heap = [0] := by decide

/-- C5, amended: from every prior state satisfying the heap accounting, an `Init` call
whose asset manager is present discards the engine that was live before the call,
whatever the outcome: afterwards that engine is not on the heap and `g_ppocr` is
either null or the newly constructed instance, never the prior one. A call whose asset
manager is null returns `JNI_FALSE` and leaves the statics, prior engine included,
unchanged. -/
theorem Init_discards_prior_engine (c : InitCall) (s : Manager) (hi : Inv s) :
    (c.mgr ≠ none →
      (∀ e, s.g_ppocr = some e →
        e.id ∉ (Init c s).state.heap ∧
        ∀ e1, (Init c s).state.g_ppocr = some e1 → e1.id ≠ e.id) ∧
      ((Init c s).state.g_ppocr = none ∨
        ∃ e1, (Init c s).state.g_ppocr = some e1 ∧ e1.id = s.next_serial ∧
          e1.id ∉ s.heap)) ∧
    (c.mgr = none → (Init c s).ret = false ∧ (Init c s).state = s) := by
  have hd := delete_ppocr_of_inv s hi
  have hfresh : s.next_serial ∉ s.heap := fun hmem => Nat.lt_irrefl _ (hi.2 _ hmem)
  have hprior : ∀ e, s.g_ppocr = some e → e.id < s.next_serial := by
    intro e he
    apply hi.2
    rw [hi.1, he]
    simp [engine_ids]
  refine ⟨fun hm => ?_, fun hm => ⟨(Init_no_assets c s hm).1, (Init_no_assets c s hm).2.1⟩⟩
  cases hmgr : c.mgr with
  | none => exact absurd hmgr hm
  | some m =>
    by_cases hr : c.load_ret = 0
    · obtain ⟨hg, hh, _⟩ := Init_load_ok_state c s m hmgr hr
      refine ⟨fun e he => ?_, Or.inr ⟨committed c s, hg, rfl, hfresh⟩⟩
      have hlt := hprior e he
      rw [hh, hd, hg]
      refine ⟨?_, fun e1 h1 => ?_⟩
      · simp only [List.mem_singleton]
        omega
      · have h2 : e1.id = s.next_serial := by
          rw [← Option.some.inj h1]
          rfl
        omega
    · obtain ⟨_, hst, _⟩ := Init_load_failure c s m hmgr hr
      refine ⟨fun e _ => ?_, Or.inl (by rw [hst])⟩
      rw [hst]
      simp [hd]

theorem Init_discards_prior_engine_witness :
    ((∀ e, one_engine.g_ppocr = some e →
        e.id ∉ (Init init_ok one_engine).state.heap ∧
        ∀ e1, (Init init_ok one_engine).state.g_ppocr = some e1 → e1.id ≠ e.id) ∧
      ((Init init_ok one_engine).state.g_ppocr = none ∨
        ∃ e1, (Init init_ok one_engine).state.g_ppocr = some e1 ∧
          e1.id = one_engine.next_serial ∧ e1.id ∉ one_engine.heap)) ∧
    ((Init init_no_assets one_engine).ret = false ∧
      (Init init_no_assets one_engine).state = one_engine) :=
  ⟨(Init_discards_prior_engine init_ok one_engine (by decide)).1 (by decide),
   (Init_discards_prior_engine init_no_assets one_engine (by decide)).2 rfl⟩

/-! ## `JNI_OnUnload` -/

/-- C8, as stated, fails: after a successful `Init` followed by an `Init` whose load
fails, no engine is live while the result class is still cached and the GPU instance
exists; `JNI_OnUnload` in that state clears the class handle and destroys the GPU
instance, so the statics change. -/
theorem JNI_OnUnload_without_engine_changes_state :
    (Init init_load_fails one_engine).state.g_ppocr = none ∧
    (Init init_load_fails one_engine).state.objCls = some 7 ∧
    (Init init_load_fails one_engine).state.gpu_instance = true ∧
    (JNI_OnUnload true (Init init_load_fails one_engine).state).state.objCls = none ∧
    (JNI_OnUnload true (Init init_load_fails one_engine).state).state.gpu_instance =
      false ∧
    (JNI_OnUnload true (Init init_load_fails one_engine).state).state ≠
      (Init init_load_fails one_engine).state := by
  decide

/-- C8, amended: for every state, after `JNI_OnUnload` `g_ppocr` is null (and, under the
heap accounting, no instance is alive), the cached result class is cleared and the GPU
instance is destroyed; in a state with no live engine, no cached class and no GPU
instance the call leaves the statics unchanged; and a second `JNI_OnUnload` leaves
the state the first one produced. -/
theorem JNI_OnUnload_idempotent (ok ok2 : Bool) (s : Manager) :
    (JNI_OnUnload ok s).state.g_ppocr = none ∧
    (JNI_OnUnload ok s).state.objCls = none ∧
    (JNI_OnUnload ok s).state.gpu_instance = false ∧
    (Inv s → live_engines (JNI_OnUnload ok s).state = 0) ∧
    (s.g_ppocr = none → s.objCls = none → s.gpu_instance = false →
      (JNI_OnUnload ok s).state = s) ∧
    (JNI_OnUnload ok2 (JNI_OnUnload ok s).state).state = (JNI_OnUnload ok s).state := by
  refine ⟨rfl, rfl, rfl, fun hi => ?_, fun hg ho hgpu => ?_, rfl⟩
  · simp [live_engines, JNI_OnUnload, delete_ppocr_of_inv s hi]
  · cases s
    simp_all [JNI_OnUnload, delete_ppocr_none]

theorem JNI_OnUnload_idempotent_witness :
    live_engines (JNI_OnUnload true one_engine).state = 0 ∧
    (JNI_OnUnload true static_init).state = static_init :=
  ⟨(JNI_OnUnload_idempotent true true one_engine).2.2.2.1 (by decide),
   (JNI_OnUnload_idempotent true true static_init).2.2.2.2.1 rfl rfl rfl⟩

/-! ## `Detect` -/

/-- With `g_ppocr` null, `Detect` returns null, changes nothing, and performs neither an
engine call nor a marshaling step. -/
theorem Detect_without_engine {F : Type} (P : Platform F) (d : DetectCall) (s : Manager)
    (hg : s.g_ppocr = none) :
    (Detect P d s).ret = DetectResult.null ∧
    ∀ ev ∈ (Detect P d s).trace, engine_or_marshal ev = false := by
  unfold Detect
  cases d.bitmap.info with
  | none => simp [engine_or_marshal]
  | some info =>
    by_cases hf : info.format = ANDROID_BITMAP_FORMAT_RGBA_8888
    · simp [hf, hg, adapt_events, engine_or_marshal]
    · simp [hf, engine_or_marshal]

/-- On a bitmap whose info cannot be read or whose format is not RGBA_8888, `Detect`
returns null after the single `AndroidBitmap_getInfo` call, whatever the statics. -/
theorem Detect_wrong_format {F : Type} (P : Platform F) (d : DetectCall) (s : Manager)
    (hf : ∀ info, d.bitmap.info = some info →
      info.format ≠ ANDROID_BITMAP_FORMAT_RGBA_8888) :
    (Detect P d s).ret = DetectResult.null ∧
    (Detect P d s).trace = [Event.call Callee.AndroidBitmap_getInfo] := by
  unfold Detect
  cases hi : d.bitmap.info with
  | none => simp
  | some info => simp [hf info hi]

/-- C2, evaluated on the code: on the freshly loaded library, the `Init` call whose
`FindClass` fails returns `JNI_FALSE`, so no `Init` has returned success; the `Detect`
call that follows does not return null, calls `detect_and_recognize` and goes on to
`NewObjectArray`. -/
theorem Detect_after_failed_Init_reaches_engine :
    (Init init_no_class loaded_init).ret = false ∧
    (Detect abc_platform detect_rgba (Init init_no_class loaded_init).state).ret ≠
      DetectResult.null ∧
    Event.call Callee.detect_and_recognize ∈
      (Detect abc_platform detect_rgba (Init init_no_class loaded_init).state).trace ∧
    Event.call Callee.NewObjectArray ∈
      (Detect abc_platform detect_rgba (Init init_no_class loaded_init).state).trace := by
  decide

/-- C6, evaluated on the code: in the state left by the `Init` call whose `FindClass`
fails, an engine is live and no result class is cached; `Detect` on an RGBA_8888 bitmap
then hands a null class to `NewObjectArray` and returns no array. -/
theorem Detect_live_engine_without_class_no_array :
    engine_without_class.g_ppocr ≠ none ∧
    engine_without_class.objCls = none ∧
    (detect_rgba.bitmap.info.map (fun i => i.format)) =
      some ANDROID_BITMAP_FORMAT_RGBA_8888 ∧
    (Detect abc_platform detect_rgba engine_without_class).ret =
      DetectResult.undefined := by
  decide

/-- The marshaled array is the object list mapped through `to_Obj`, whenever `marshal`
yields an array. -/
theorem marshal_array {F : Type} (P : Platform F) (s : Manager) (objects : List (Object F))
    (recs : List (Obj F)) (h : (marshal P s objects).1 = DetectResult.array recs) :
    recs = objects.map (to_Obj P) := by
  unfold marshal at h
  cases ho : s.objCls with
  | none => simp [ho] at h
  | some cls =>
    simp only [ho] at h
    split at h
    · simp at h
    · split at h
      · simpa using h.symm
      · simp at h

/-- C7: for every RGBA_8888 bitmap and live engine, whenever `Detect` returns an array it
has exactly as many records as the object list `detect_and_recognize` produced, and
its i-th record carries the four corners of the i-th object's `rrect`, the label
`decode_text` of the i-th object and the i-th object's `prob`; and `Detect` does return
that array whenever the result class and its member ids are cached and the list
length fits `jsize`. -/
theorem Detect_marshals_objects {F : Type} (P : Platform F) (d : DetectCall) (s : Manager)
    (info : AndroidBitmapInfo) (e : PPOCRv5)
    (hinfo : d.bitmap.info = some info)
    (hfmt : info.format = ANDROID_BITMAP_FORMAT_RGBA_8888)
    (hlive : s.g_ppocr = some e) :
    (∀ recs, (Detect P d s).ret = DetectResult.array recs →
      recs.length = (P.detect_and_recognize e (P.from_android_bitmap d.bitmap)).length ∧
      ∀ (i : Nat) (o : Object F),
        (P.detect_and_recognize e (P.from_android_bitmap d.bitmap))[i]? = some o →
        recs[i]? = some
          ({ x0 := (P.points o.rrect 0).x, y0 := (P.points o.rrect 0).y,
             x1 := (P.points o.rrect 1).x, y1 := (P.points o.rrect 1).y,
             x2 := (P.points o.rrect 2).x, y2 := (P.points o.rrect 2).y,
             x3 := (P.points o.rrect 3).x, y3 := (P.points o.rrect 3).y,
             label := decode_text P.character_dict P.character_dict_size o,
             prob := o.prob } : Obj F)) ∧
    (∀ cls, s.objCls = some cls → s.memberIds = some cls →
      (P.detect_and_recognize e (P.from_android_bitmap d.bitmap)).length ≤ JSIZE_MAX →
      ∃ recs, (Detect P d s).ret = DetectResult.array recs) := by
  have hret : (Detect P d s).ret =
      (marshal P s (P.detect_and_recognize e (P.from_android_bitmap d.bitmap))).1 := by
    unfold Detect
    simp [hinfo, hfmt, hlive]
  constructor
  · intro recs hrecs
    rw [hret] at hrecs
    have hmap := marshal_array P s _ recs hrecs
    subst hmap
    refine ⟨by simp, fun i o hio => ?_⟩
    simp [List.getElem?_map, hio, to_Obj]
  · intro cls hcls hids hlen
    refine ⟨(P.detect_and_recognize e (P.from_android_bitmap d.bitmap)).map (to_Obj P), ?_⟩
    rw [hret]
    unfold marshal
    simp only [hcls]
    rw [if_neg (by omega), if_pos (Or.inr hids)]

theorem Detect_marshals_objects_witness :
    (∀ recs, (Detect abc_platform detect_rgba one_engine).ret = DetectResult.array recs →
      recs.length = (abc_platform.detect_and_recognize (committed init_ok loaded_init)
        (abc_platform.from_android_bitmap detect_rgba.bitmap)).length ∧
      ∀ (i : Nat) (o : Object Int),
        (abc_platform.detect_and_recognize (committed init_ok loaded_init)
          (abc_platform.from_android_bitmap detect_rgba.bitmap))[i]? = some o →
        recs[i]? = some
          ({ x0 := (abc_platform.points o.rrect 0).x, y0 := (abc_platform.points o.rrect 0).y,
             x1 := (abc_platform.points o.rrect 1).x, y1 := (abc_platform.points o.rrect 1).y,
             x2 := (abc_platform.points o.rrect 2).x, y2 := (abc_platform.points o.rrect 2).y,
             x3 := (abc_platform.points o.rrect 3).x, y3 := (abc_platform.points o.rrect 3).y,
             label := decode_text abc_platform.character_dict
               abc_platform.character_dict_size o,
             prob := o.prob } : Obj Int)) ∧
    (∃ recs, (Detect abc_platform detect_rgba one_engine).ret = DetectResult.array recs) ∧
    (Detect abc_platform detect_rgba one_engine).ret = DetectResult.array
      [({ x0 := 5, y0 := 6, x1 := 5, y1 := 6, x2 := 5, y2 := 6, x3 := 5, y3 := 6,
          label := "cab", prob := 1 } : Obj Int)] :=
  ⟨(Detect_marshals_objects abc_platform detect_rgba one_engine
      { width := 1, height := 1, stride := 4, format := ANDROID_BITMAP_FORMAT_RGBA_8888 }
      (committed init_ok loaded_init) rfl rfl (by decide)).1,
   (Detect_marshals_objects abc_platform detect_rgba one_engine
      { width := 1, height := 1, stride := 4, format := ANDROID_BITMAP_FORMAT_RGBA_8888 }
      (committed init_ok loaded_init) rfl rfl (by decide)).2 7 (by decide) (by decide)
      (by decide),
   by decide⟩

/-! ## Lock discipline of the three entry points -/

theorem guarded_tail (p : Event → Bool) (held : Bool) (ev : Event) (rest : List Event)
    (h : guarded p held (ev :: rest) = true) :
    guarded p (lock_step held ev) rest = true := by
  simp only [guarded, Bool.and_eq_true] at h
  exact h.2

theorem guarded_head (p : Event → Bool) (held : Bool) (ev : Event) (rest : List Event)
    (h : guarded p held (ev :: rest) = true) (hp : p ev = true) : held = true := by
  simp only [guarded, Bool.and_eq_true, Bool.or_eq_true, hp] at h
  simpa using h.1

theorem guarded_loop_events {F : Type} (objects : List (Object F)) (held : Bool) :
    guarded engine_access held (loop_events objects) = true := by
  induction objects with
  | nil => rfl
  | cons o rest ih =>
    simp [loop_events, object_events, guarded, lock_step, engine_access, ih]

theorem lock_after_loop_events {F : Type} (objects : List (Object F)) (held : Bool) :
    lock_after held (loop_events objects) = some held := by
  induction objects with
  | nil => rfl
  | cons o rest ih =>
    simp [loop_events, object_events, lock_after, lock_step, ih]

theorem guarded_engine_Init (c : InitCall) (s : Manager) :
    guarded engine_access false (Init c s).trace = true ∧
    guarded any_step false (Init c s).trace = true ∧
    lock_after false (Init c s).trace = some false := by
  unfold Init
  cases c.mgr with
  | none => exact ⟨rfl, rfl, rfl⟩
  | some m =>
    by_cases hr : c.load_ret = 0
    · cases s.objCls <;> cases c.find_class <;> cases s.g_ppocr <;>
        simp [hr, init_load_events, delete_events, guarded, lock_after, lock_step,
          engine_access, any_step]
    · cases s.g_ppocr <;>
        simp [hr, init_load_events, delete_events, guarded, lock_after, lock_step,
          engine_access, any_step]

theorem guarded_engine_JNI_OnUnload (ok : Bool) (s : Manager) :
    guarded engine_access false (JNI_OnUnload ok s).trace = true ∧
    lock_after false (JNI_OnUnload ok s).trace = some false ∧
    guarded shared_access false (JNI_OnUnload ok s).trace = false := by
  unfold JNI_OnUnload
  cases s.g_ppocr <;> cases s.objCls <;> cases ok <;> exact ⟨rfl, rfl, rfl⟩

theorem marshal_events_head {F : Type} (P : Platform F) (s : Manager)
    (objects : List (Object F)) :
    ∃ rest, (marshal P s objects).2 =
      Event.read Static.objCls :: Event.call Callee.NewObjectArray :: rest := by
  unfold marshal
  cases s.objCls with
  | none => exact ⟨_, rfl⟩
  | some cls =>
    by_cases h1 : objects.length > JSIZE_MAX
    · exact ⟨_, by simp only [h1]; rfl⟩
    · by_cases h2 : objects.length = 0 ∨ s.memberIds = some cls
      · exact ⟨_, by simp only [h1, h2]; rfl⟩
      · exact ⟨_, by simp only [h1, h2]; rfl⟩

theorem marshal_events_guarded {F : Type} (P : Platform F) (s : Manager)
    (objects : List (Object F)) (held : Bool) :
    guarded engine_access held (marshal P s objects).2 = true ∧
    lock_after held (marshal P s objects).2 = some held := by
  unfold marshal
  cases s.objCls with
  | none => simp [guarded, lock_after, lock_step, engine_access]
  | some cls =>
    by_cases h1 : objects.length > JSIZE_MAX
    · simp [h1, guarded, lock_after, lock_step, engine_access]
    · by_cases h2 : objects.length = 0 ∨ s.memberIds = some cls
      · simp only [h1, h2]
        simp [guarded, lock_after, lock_step, engine_access, guarded_loop_events,
          lock_after_loop_events]
      · simp only [h1, h2]
        simp [guarded, lock_after, lock_step, engine_access]

theorem guarded_engine_Detect {F : Type} (P : Platform F) (d : DetectCall) (s : Manager) :
    guarded engine_access false (Detect P d s).trace = true ∧
    lock_after false (Detect P d s).trace = some false := by
  unfold Detect
  cases d.bitmap.info with
  | none => exact ⟨rfl, rfl⟩
  | some info =>
    by_cases hf : info.format = ANDROID_BITMAP_FORMAT_RGBA_8888
    · cases hg : s.g_ppocr with
      | none => simp [hf, adapt_events, guarded, lock_after, lock_step, engine_access]
      | some e =>
        simp [hf, adapt_events, guarded, lock_after, lock_step, engine_access,
          marshal_events_guarded]
    · simp [hf, guarded, lock_after, lock_step, engine_access]

theorem Detect_class_read_unguarded {F : Type} (P : Platform F) (d : DetectCall)
    (s : Manager) (info : AndroidBitmapInfo) (e : PPOCRv5)
    (hinfo : d.bitmap.info = some info)
    (hfmt : info.format = ANDROID_BITMAP_FORMAT_RGBA_8888)
    (hlive : s.g_ppocr = some e) :
    guarded shared_access false (Detect P d s).trace = false ∧
    guarded any_step false (Detect P d s).trace = false := by
  obtain ⟨rest, hrest⟩ :=
    marshal_events_head P s (P.detect_and_recognize e (P.from_android_bitmap d.bitmap))
  unfold Detect
  simp [hinfo, hfmt, hlive, hrest, adapt_events, guarded, lock_step, shared_access,
    any_step]

theorem guarded_engine_call_trace {F : Type} (P : Platform F) (s : Manager) (c : Call) :
    guarded engine_access false (call_trace P s c) = true ∧
    lock_after false (call_trace P s c) = some false := by
  cases c with
  | init i => exact ⟨(guarded_engine_Init i s).1, (guarded_engine_Init i s).2.2⟩
  | detect d => exact guarded_engine_Detect P d s
  | unload ok =>
    exact ⟨(guarded_engine_JNI_OnUnload ok s).1, (guarded_engine_JNI_OnUnload ok s).2.1⟩

/-! ## Concurrent callers -/

theorem threadsGuarded_start (p : Event → Bool) (traces : List (List Event))
    (h : ∀ tr ∈ traces, guarded p false tr = true) :
    ThreadsGuarded p (Threads.start traces) := by
  intro i tr hi
  have hmem : tr ∈ traces := List.getElem?_mem hi
  simpa [Threads.start] using h tr hmem

theorem threadsGuarded_set (p : Event → Bool) (t : Threads) (i : Nat) (ev : Event)
    (rest : List Event) (holder1 : Option Nat)
    (hinv : ThreadsGuarded p t) (hpi : t.pending[i]? = some (ev :: rest))
    (hself : decide (holder1 = some i) = lock_step (decide (t.holder = some i)) ev)
    (hother : ∀ j, j ≠ i → decide (holder1 = some j) = decide (t.holder = some j)) :
    ThreadsGuarded p { holder := holder1, pending := t.pending.set i rest } := by
  intro j tr hj
  by_cases hij : i = j
  · subst hij
    have hlen : i < t.pending.length := by
      rcases List.getElem?_eq_some_iff.1 hpi with ⟨hl, _⟩
      exact hl
    simp only [List.getElem?_set_self hlen, Option.some.injEq] at hj
    subst hj
    simp only [hself]
    exact guarded_tail p _ ev rest (hinv i _ hpi)
  · simp only [List.getElem?_set_ne hij] at hj
    simp only [hother j (Ne.symm hij)]
    exact hinv j tr hj

theorem threadsGuarded_advance (p : Event → Bool) (t t1 : Threads) (i : Nat)
    (hinv : ThreadsGuarded p t) (hadv : t.advance i = some t1) : ThreadsGuarded p t1 := by
  unfold Threads.advance at hadv
  cases hpi : t.pending[i]? with
  | none => simp [hpi] at hadv
  | some l =>
    cases l with
    | nil => simp [hpi] at hadv
    | cons ev rest =>
      simp only [hpi] at hadv
      cases ev with
      | acquire =>
        by_cases hh : t.holder = none
        · simp only [hh, if_true, Option.some.injEq] at hadv
          subst hadv
          refine threadsGuarded_set p t i _ rest (some i) hinv hpi ?_ ?_
          · simp [lock_step]
          · intro j hj
            simp [hh, Ne.symm hj]
        · simp [hh] at hadv
      | release =>
        by_cases hh : t.holder = some i
        · simp only [hh, if_true, Option.some.injEq] at hadv
          subst hadv
          refine threadsGuarded_set p t i _ rest none hinv hpi ?_ ?_
          · simp [lock_step]
          · intro j hj
            simp [hh, Ne.symm hj]
        · simp [hh] at hadv
      | read v =>
        simp only [Option.some.injEq] at hadv
        subst hadv
        exact threadsGuarded_set p t i _ rest t.holder hinv hpi (by simp [lock_step])
          (fun _ _ => rfl)
      | write v =>
        simp only [Option.some.injEq] at hadv
        subst hadv
        exact threadsGuarded_set p t i _ rest t.holder hinv hpi (by simp [lock_step])
          (fun _ _ => rfl)
      | call f =>
        simp only [Option.some.injEq] at hadv
        subst hadv
        exact threadsGuarded_set p t i _ rest t.holder hinv hpi (by simp [lock_step])
          (fun _ _ => rfl)

theorem threadsGuarded_exec (p : Event → Bool) (schedule : List Nat) (t t1 : Threads)
    (hinv : ThreadsGuarded p t) (hrun : t.exec schedule = some t1) :
    ThreadsGuarded p t1 := by
  induction schedule generalizing t with
  | nil =>
    simp only [Threads.exec, Option.some.injEq] at hrun
    subst hrun
    exact hinv
  | cons i later ih =>
    simp only [Threads.exec] at hrun
    cases hadv : t.advance i with
    | none => simp [hadv] at hrun
    | some t2 =>
      simp only [hadv] at hrun
      exact ih t2 (threadsGuarded_advance p t t2 i hinv hadv) hrun

theorem threadsGuarded_owner (p : Event → Bool) (t : Threads) (hinv : ThreadsGuarded p t)
    (i : Nat) (ev : Event) (rest : List Event) (hi : t.pending[i]? = some (ev :: rest))
    (hp : p ev = true) : t.holder = some i := by
  have h := guarded_head p _ ev rest (hinv i _ hi) hp
  simpa using h

theorem unlocked_loop_events {F : Type} (p : Event → Bool) (objects : List (Object F)) :
    unlocked p false (loop_events objects) = true := by
  induction objects with
  | nil => rfl
  | cons o rest ih => simp [loop_events, object_events, unlocked, lock_step, ih]

theorem marshal_events_unlocked {F : Type} (P : Platform F) (s : Manager)
    (objects : List (Object F)) (p : Event → Bool) :
    unlocked p false (marshal P s objects).2 = true := by
  unfold marshal
  cases s.objCls with
  | none => simp [unlocked, lock_step]
  | some cls =>
    by_cases h1 : objects.length > JSIZE_MAX
    · simp [h1, unlocked, lock_step]
    · by_cases h2 : objects.length = 0 ∨ s.memberIds = some cls
      · simp only [h1, h2]
        simp [unlocked, lock_step, unlocked_loop_events]
      · simp only [h1, h2]
        simp [unlocked, lock_step]

theorem Detect_lock_scope {F : Type} (P : Platform F) (d : DetectCall) (s : Manager) :
    unlocked (all_but detect_locked) false (Detect P d s).trace = true := by
  unfold Detect
  cases d.bitmap.info with
  | none => rfl
  | some info =>
    by_cases hf : info.format = ANDROID_BITMAP_FORMAT_RGBA_8888
    · cases hg : s.g_ppocr with
      | none =>
        simp [hf, adapt_events, unlocked, lock_step, all_but, any_step, detect_locked]
      | some e =>
        simp [hf, adapt_events, unlocked, lock_step, all_but, any_step, detect_locked,
          marshal_events_unlocked]
    · simp [hf, unlocked, lock_step, all_but, any_step, detect_locked]

theorem Detect_unlocked_steps_occur {F : Type} (P : Platform F) (d : DetectCall)
    (s : Manager) (info : AndroidBitmapInfo) (e : PPOCRv5)
    (hinfo : d.bitmap.info = some info)
    (hfmt : info.format = ANDROID_BITMAP_FORMAT_RGBA_8888)
    (hlive : s.g_ppocr = some e) :
    ∃ rest, (Detect P d s).trace =
      [Event.call Callee.AndroidBitmap_getInfo, Event.call Callee.from_android_bitmap,
       Event.acquire, Event.read Static.g_ppocr, Event.read Static.g_ppocr,
       Event.call Callee.detect_and_recognize, Event.release,
       Event.read Static.objCls, Event.call Callee.NewObjectArray] ++ rest := by
  obtain ⟨rest, hrest⟩ :=
    marshal_events_head P s (P.detect_and_recognize e (P.from_android_bitmap d.bitmap))
  refine ⟨rest, ?_⟩
  unfold Detect
  simp [hinfo, hfmt, hlive, hrest, adapt_events]

theorem JNI_OnUnload_lock_scope (ok : Bool) (s : Manager) :
    unlocked (all_but unload_locked) false (JNI_OnUnload ok s).trace = true ∧
    Event.read Static.objCls ∈ (JNI_OnUnload ok s).trace ∧
    (s.objCls ≠ none → Event.write Static.objCls ∈ (JNI_OnUnload ok s).trace) := by
  unfold JNI_OnUnload
  refine ⟨?_, ?_, ?_⟩
  · cases s.g_ppocr <;> cases s.objCls <;> cases ok <;> rfl
  · cases s.objCls <;> simp [unload_class_events]
  · intro hcls
    cases hc : s.objCls with
    | none => exact absurd hc hcls
    | some cls => simp [unload_class_events]

/-- C10, as stated, fails: with an engine live, `Detect` on an RGBA_8888 bitmap releases
`g_lock` right after `detect_and_recognize` and then reads `objCls` and the member ids
without it, and it converts the bitmap before taking it; `JNI_OnUnload` likewise reads
and clears `objCls` after releasing the lock. -/
theorem Detect_and_unload_touch_handles_unlocked :
    (Detect abc_platform detect_rgba one_engine).trace =
      [Event.call Callee.AndroidBitmap_getInfo, Event.call Callee.from_android_bitmap,
       Event.acquire, Event.read Static.g_ppocr, Event.read Static.g_ppocr,
       Event.call Callee.detect_and_recognize, Event.release,
       Event.read Static.objCls, Event.call Callee.NewObjectArray,
       Event.read Static.objCls, Event.read Static.memberIds, Event.call Callee.NewObject,
       Event.read Static.memberIds, Event.call Callee.SetFields,
       Event.call Callee.SetObjectArrayElement] ∧
    guarded shared_access false (Detect abc_platform detect_rgba one_engine).trace = false ∧
    guarded any_step false (Detect abc_platform detect_rgba one_engine).trace = false ∧
    (JNI_OnUnload true one_engine).trace =
      [Event.acquire, Event.read Static.g_ppocr, Event.call Callee.delete_PPOCRv5,
       Event.write Static.g_ppocr, Event.release,
       Event.read Static.objCls, Event.call Callee.GetEnv, Event.read Static.objCls,
       Event.call Callee.DeleteGlobalRef, Event.write Static.objCls,
       Event.call Callee.destroy_gpu_instance] ∧
    guarded shared_access false (JNI_OnUnload true one_engine).trace = false := by
  decide

/-- C10, amended: the lock `g_lock` guards the live engine, not the whole of every call.
(1) In every call of `Init`, `Detect` and `JNI_OnUnload` the lock operations are well
formed and the lock is released at return, and every read or write of `g_ppocr` and
every call on a `PPOCRv5` instance happens while the lock is held. (2) `Init` performs
all its steps, accesses to the cached class and member ids included, under the lock.
(3) For any number of such calls running as concurrent threads under mutex semantics,
in any schedule, two different threads are never both about to access `g_ppocr` or call
the engine. (4) `Detect` with a live engine and an RGBA_8888 bitmap does not hold the
lock for the whole call and reads the cached class outside it, and (5) `JNI_OnUnload`
always reads `objCls` outside the lock. (6) In every `Detect` call every step other
than the reads of `g_ppocr` and the `detect_and_recognize` call runs without the lock;
with a live engine and an RGBA_8888 bitmap the call starts with the bitmap conversion,
then the lock block holding exactly the null check and `detect_and_recognize`, then,
after the release, the read of `objCls` for `NewObjectArray` and the rest of
marshaling. (7) In every `JNI_OnUnload` call every step other than `delete g_ppocr;
g_ppocr = nullptr;` runs without the lock; `objCls` is always read, and when a class is
cached it is also cleared, there. -/
theorem g_lock_guards_engine {F : Type} (P : Platform F) :
    (∀ (s : Manager) (c : Call),
      lock_after false (call_trace P s c) = some false ∧
      guarded engine_access false (call_trace P s c) = true) ∧
    (∀ (s : Manager) (i : InitCall), guarded any_step false (Init i s).trace = true) ∧
    (∀ (calls : List (Manager × Call)) (schedule : List Nat) (t : Threads),
      (Threads.start (calls.map (fun sc => call_trace P sc.1 sc.2))).exec schedule =
          some t →
        ∀ (i j : Nat) (e1 e2 : Event) (r1 r2 : List Event),
          t.pending[i]? = some (e1 :: r1) → t.pending[j]? = some (e2 :: r2) →
          engine_access e1 = true → engine_access e2 = true → i = j) ∧
    (∀ (s : Manager) (d : DetectCall) (info : AndroidBitmapInfo) (e : PPOCRv5),
      d.bitmap.info = some info → info.format = ANDROID_BITMAP_FORMAT_RGBA_8888 →
      s.g_ppocr = some e →
        guarded shared_access false (Detect P d s).trace = false ∧
        guarded any_step false (Detect P d s).trace = false) ∧
    (∀ (s : Manager) (ok : Bool),
      guarded shared_access false (JNI_OnUnload ok s).trace = false) ∧
    (∀ (s : Manager) (d : DetectCall),
      unlocked (all_but detect_locked) false (Detect P d s).trace = true) ∧
    (∀ (s : Manager) (d : DetectCall) (info : AndroidBitmapInfo) (e : PPOCRv5),
      d.bitmap.info = some info → info.format = ANDROID_BITMAP_FORMAT_RGBA_8888 →
      s.g_ppocr = some e →
        ∃ rest, (Detect P d s).trace =
          [Event.call Callee.AndroidBitmap_getInfo, Event.call Callee.from_android_bitmap,
           Event.acquire, Event.read Static.g_ppocr, Event.read Static.g_ppocr,
           Event.call Callee.detect_and_recognize, Event.release,
           Event.read Static.objCls, Event.call Callee.NewObjectArray] ++ rest) ∧
    (∀ (s : Manager) (ok : Bool),
      unlocked (all_but unload_locked) false (JNI_OnUnload ok s).trace = true ∧
      Event.read Static.objCls ∈ (JNI_OnUnload ok s).trace ∧
      (s.objCls ≠ none → Event.write Static.objCls ∈ (JNI_OnUnload ok s).trace)) := by
  refine ⟨fun s c => ⟨(guarded_engine_call_trace P s c).2, (guarded_engine_call_trace P s c).1⟩,
    fun s i => (guarded_engine_Init i s).2.1, ?_,
    fun s d info e h1 h2 h3 => Detect_class_read_unguarded P d s info e h1 h2 h3,
    fun s ok => (guarded_engine_JNI_OnUnload ok s).2.2,
    fun s d => Detect_lock_scope P d s,
    fun s d info e h1 h2 h3 => Detect_unlocked_steps_occur P d s info e h1 h2 h3,
    fun s ok => JNI_OnUnload_lock_scope ok s⟩
  intro calls schedule t hrun i j e1 e2 r1 r2 hi hj h1 h2
  have hstart : ThreadsGuarded engine_access
      (Threads.start (calls.map (fun sc => call_trace P sc.1 sc.2))) := by
    apply threadsGuarded_start
    intro tr htr
    obtain ⟨sc, _, rfl⟩ := List.mem_map.1 htr
    exact (guarded_engine_call_trace P sc.1 sc.2).1
  have hinv := threadsGuarded_exec engine_access schedule _ t hstart hrun
  have hoi := threadsGuarded_owner engine_access t hinv i e1 r1 hi h1
  have hoj := threadsGuarded_owner engine_access t hinv j e2 r2 hj h2
  rw [hoi] at hoj
  exact Option.some.inj hoj

theorem g_lock_guards_engine_witness :
    (Threads.start ([(one_engine, Call.detect detect_rgba),
        (one_engine, Call.init init_ok)].map
        (fun sc => call_trace abc_platform sc.1 sc.2))).exec [0, 0, 0] ≠ none ∧
    (∀ t, (Threads.start ([(one_engine, Call.detect detect_rgba),
        (one_engine, Call.init init_ok)].map
        (fun sc => call_trace abc_platform sc.1 sc.2))).exec [0, 0, 0] = some t →
      ∀ (i j : Nat) (e1 e2 : Event) (r1 r2 : List Event),
        t.pending[i]? = some (e1 :: r1) → t.pending[j]? = some (e2 :: r2) →
        engine_access e1 = true → engine_access e2 = true → i = j) ∧
    guarded shared_access false (Detect abc_platform detect_rgba one_engine).trace = false ∧
    (∃ rest, (Detect abc_platform detect_rgba one_engine).trace =
      [Event.call Callee.AndroidBitmap_getInfo, Event.call Callee.from_android_bitmap,
       Event.acquire, Event.read Static.g_ppocr, Event.read Static.g_ppocr,
       Event.call Callee.detect_and_recognize, Event.release,
       Event.read Static.objCls, Event.call Callee.NewObjectArray] ++ rest) ∧
    Event.write Static.objCls ∈ (JNI_OnUnload true one_engine).trace :=
  ⟨by decide,
   fun t ht => (g_lock_guards_engine abc_platform).2.2.1 _ [0, 0, 0] t ht,
   ((g_lock_guards_engine abc_platform).2.2.2.1 one_engine detect_rgba
      { width := 1, height := 1, stride := 4, format := ANDROID_BITMAP_FORMAT_RGBA_8888 }
      (committed init_ok loaded_init) rfl rfl (by decide)).1,
   (g_lock_guards_engine abc_platform).2.2.2.2.2.2.1 one_engine detect_rgba
      { width := 1, height := 1, stride := 4, format := ANDROID_BITMAP_FORMAT_RGBA_8888 }
      (committed init_ok loaded_init) rfl rfl (by decide),
   ((g_lock_guards_engine abc_platform).2.2.2.2.2.2.2 one_engine true).2.2 (by decide)⟩

end PaddleOCRNcnn
